import Mathlib

/-!
Verification of the wmipp client library (src/include/wmipp/wmipp.hxx)
against its natural-language specification.

The development shallowly embeds the library's core: the typed
dynamic-value decoding engine (the ConvertVariant overload family), the
Object / QueryResult record model, the cursor drain loop, the Interface
constructor's failure paths, and the shared-ownership lifetime discipline.
External collaborators (COM variant coercion, ATL safe-array attach,
IWbemClassObject::Get, std::shared_ptr reference counting) are not part of
the repository; where a definition models one of them it says so in its
doc comment and follows the specification's description of the boundary.
-/

namespace Wmipp

/-- Integer widths supported by the variant coercion paths, mirroring the
integral VARIANT kinds (VT_I1..VT_UI8) the source's templated scalar
overload can be instantiated at. -/
inductive IntWidth
  | i8 | u8 | i16 | u16 | i32 | u32 | i64 | u64
deriving DecidableEq

/-- Lower bound of the representable range of an integer width. -/
def IntWidth.lo : IntWidth → Int
  | .i8 => -(2 ^ 7)
  | .u8 => 0
  | .i16 => -(2 ^ 15)
  | .u16 => 0
  | .i32 => -(2 ^ 31)
  | .u32 => 0
  | .i64 => -(2 ^ 63)
  | .u64 => 0

/-- Upper bound of the representable range of an integer width. -/
def IntWidth.hi : IntWidth → Int
  | .i8 => 2 ^ 7 - 1
  | .u8 => 2 ^ 8 - 1
  | .i16 => 2 ^ 15 - 1
  | .u16 => 2 ^ 16 - 1
  | .i32 => 2 ^ 31 - 1
  | .u32 => 2 ^ 32 - 1
  | .i64 => 2 ^ 63 - 1
  | .u64 => 2 ^ 64 - 1

/-- Whether an integer value is representable at a given width. -/
def IntWidth.fits (w : IntWidth) (n : Int) : Bool :=
  decide (w.lo ≤ n ∧ n ≤ w.hi)

/-- A BSTR-backed string, modelled as its sequence of code units.  The
source funnels both std::string and std::wstring through bstr_t, so one
encoding-agnostic representation covers both; the character-width
materialization itself is external (comutil) and is the identity on the
code-unit sequence for the ASCII range. -/
abbrev Str : Type := List Nat

/-- DynamicValue: the tagged union a WMI property read produces
(a CComVariant in the source).  Arrays are homogeneous, as a SAFEARRAY
carries a single element VARTYPE; that invariant is structural here.
Floating-point kinds are outside this embedding. -/
inductive Variant
  | empty
  | vBool (b : Bool)
  | vInt (w : IntWidth) (n : Int)
  | vStr (s : Str)
  | arrBool (xs : List Bool)
  | arrInt (w : IntWidth) (xs : List Int)
  | arrStr (xs : List Str)
deriving DecidableEq

/-- The runtime kind (VARTYPE) of a Variant. -/
inductive VKind
  | kEmpty
  | kBool
  | kInt (w : IntWidth)
  | kStr
  | kArrBool
  | kArrInt (w : IntWidth)
  | kArrStr
deriving DecidableEq

/-- Kind of a variant value. -/
def Variant.kind : Variant → VKind
  | .empty => .kEmpty
  | .vBool _ => .kBool
  | .vInt w _ => .kInt w
  | .vStr _ => .kStr
  | .arrBool _ => .kArrBool
  | .arrInt w _ => .kArrInt w
  | .arrStr _ => .kArrStr

/-- The closed set of target shapes a caller can request from the
ConvertVariant overload family (spec section 9: scalar, string,
array-of-scalar, array-of-string, untyped passthrough).  tStr covers both
std::string and std::wstring, and tVecStr both vector targets, because the
source funnels both character widths through one bstr_t code path. -/
inductive Target
  | tVariant
  | tBool
  | tInt (w : IntWidth)
  | tStr
  | tVecBool
  | tVecInt (w : IntWidth)
  | tVecStr
deriving DecidableEq

/-- Whether a target shape is one of the vector (array) shapes. -/
def Target.isVec : Target → Bool
  | .tVecBool => true
  | .tVecInt _ => true
  | .tVecStr => true
  | _ => false

/-- A decoded result: the union of values the decode paths can produce. -/
inductive Decoded
  | dVariant (v : Variant)
  | dBool (b : Bool)
  | dInt (n : Int)
  | dStr (s : Str)
  | dVecBool (xs : List Bool)
  | dVecInt (xs : List Int)
  | dVecStr (xs : List Str)
deriving DecidableEq

/-- Modelled from the spec: the coercing cast to a boolean performed by
static_cast inside the scalar ConvertVariant overload (comutil /
VariantChangeType, external to this repository).  Per spec section 4.1,
numeric and boolean kinds inter-coerce (a nonzero integer is true) and any
other kind fails, which the source's catch-all turns into no value. -/
def variantCastBool : Variant → Option Bool
  | .vBool b => some b
  | .vInt _ n => some (decide (n ≠ 0))
  | _ => none

/-- Modelled from the spec: the coercing cast to an integer of width w
(comutil / VariantChangeType, external to this repository).  Integer
widening and narrowing succeed exactly when the value fits the target
range; a boolean coerces to its VARIANT numeric value (true is -1) subject
to the same range check; any non-numeric kind fails. -/
def variantCastInt (w : IntWidth) : Variant → Option Int
  | .vBool b =>
    let n : Int := if b then -1 else 0
    if w.fits n then some n else none
  | .vInt _ n => if w.fits n then some n else none
  | _ => none

/-- Modelled from the spec: the coercing cast to a BSTR (comutil, external
to this repository).  Per spec section 4.1 rule 2, only a string-compatible
kind yields a string; other kinds fail. -/
def variantCastBstr : Variant → Option Str
  | .vStr s => some s
  | _ => none

/-- Modelled from the spec: CComSafeArray of bool Attach on the variant's
array handle (ATL, external to this repository).  Attach succeeds exactly
when the variant holds an array whose element VARTYPE matches; otherwise
it throws, which the source turns into no value. -/
def attachArrBool : Variant → Option (List Bool)
  | .arrBool xs => some xs
  | _ => none

/-- Modelled from the spec: CComSafeArray of an integral type Attach
(ATL, external to this repository).  The element VARTYPE must match the
requested width exactly; otherwise Attach throws. -/
def attachArrInt (w : IntWidth) : Variant → Option (List Int)
  | .arrInt w2 xs => if w2 = w then some xs else none
  | _ => none

/-- Modelled from the spec: CComSafeArray of BSTR Attach (ATL, external to
this repository). -/
def attachArrBstr : Variant → Option (List Str)
  | .arrStr xs => some xs
  | _ => none

/-- The element-by-element copy loop of the vector ConvertVariant overload
(source lines 96-100): GetAt of index 0 to count-1 pushed in order. -/
def copyOut {α : Type} : List α → List α
  | [] => []
  | x :: xs => x :: copyOut xs

/-- ConvertVariant (source lines 65-126), unified over the closed set of
target shapes.  Each branch mirrors one source overload: the generic
scalar overload attempts the coercing cast under a catch-all; the string
overload goes through ConvertVariant at bstr_t and then materializes the
character width; the vector overload attaches a CComSafeArray and copies
element by element; the vector-of-string overload first decodes a vector
of BSTRs and then converts every element (BSTR materialization always
succeeds).  The tVariant branch is the untyped passthrough: the source
returns the raw variant unchanged (Object::GetProperty short-circuits at
variant_t, and the generic overload's cast at variant_t is a copy). -/
def ConvertVariant : Target → Variant → Option Decoded
  | .tVariant, v => some (.dVariant v)
  | .tBool, v => (variantCastBool v).map .dBool
  | .tInt w, v => (variantCastInt w v).map .dInt
  | .tStr, v => (variantCastBstr v).map .dStr
  | .tVecBool, v => (attachArrBool v).map (fun xs => .dVecBool (copyOut xs))
  | .tVecInt w, v => (attachArrInt w v).map (fun xs => .dVecInt (copyOut xs))
  | .tVecStr, v => (attachArrBstr v).map (fun xs => .dVecStr (copyOut xs))

/-- Follows the spec's words (section 4.1 dispatch policy), for comparison
with the source-derived ConvertVariant: which DynamicValue kinds are
compatible with each requested target shape.  Scalar numeric or boolean
targets accept the numeric and boolean kinds; string targets accept only
string kinds; an array target of element kind K accepts only arrays of
exactly K; the untyped passthrough accepts everything. -/
def acceptsSpec : Target → VKind → Bool
  | .tVariant, _ => true
  | .tBool, .kBool => true
  | .tBool, .kInt _ => true
  | .tBool, _ => false
  | .tInt _, .kBool => true
  | .tInt _, .kInt _ => true
  | .tInt _, _ => false
  | .tStr, .kStr => true
  | .tStr, _ => false
  | .tVecBool, .kArrBool => true
  | .tVecBool, _ => false
  | .tVecInt w, .kArrInt w2 => decide (w2 = w)
  | .tVecInt _, _ => false
  | .tVecStr, .kArrStr => true
  | .tVecStr, _ => false

/-- One materialized result row (an IWbemClassObject's data): its origin
(server and namespace it came from), its qualifiers, and its named,
dynamically-typed properties. -/
structure Row where
  origin : Str
  qualifiers : List Str
  props : List (Str × Variant)
deriving DecidableEq

/-- Modelled from the spec: the external IWbemClassObject Get call the
source delegates the property read to.  It yields the named property's
variant, and fails (the FAILED branch of Object::GetProperty) when no
property of that name exists. -/
def Row.lookup (r : Row) (name : Str) : Option Variant :=
  (r.props.find? (fun p => decide (p.fst = name))).map Prod.snd

/-- The flag set passed to the external row comparison: whether to ignore
the rows' object source and whether to ignore their qualifiers. -/
structure CompareFlags where
  ignoreSource : Bool
  ignoreQualifiers : Bool
deriving DecidableEq

/-- Modelled from the spec (section 6 compareRows): the external
IWbemClassObject CompareTo.  Field data is always compared; origin and
qualifiers participate only when the corresponding ignore flag is off.
The Bool result stands for the WBEM_S_SAME outcome. -/
def Row.compareTo (a : Row) (flags : CompareFlags) (b : Row) : Bool :=
  (flags.ignoreSource || decide (a.origin = b.origin)) &&
    (flags.ignoreQualifiers || decide (a.qualifiers = b.qualifiers)) &&
    decide (a.props = b.props)

/-- Object (source lines 132-199): one record of a query result.  It holds
iface_, a counted shared reference to the Interface that produced it
(modelled by the session identifier it retains), and object_, a COM
pointer to the row, which a default-constructed Object-free path can leave
null (modelled by Option). -/
structure Object where
  iface : Nat
  object : Option Row
deriving DecidableEq

/-- Object::GetProperty (source lines 148-168): delegate the read of the
named property to the external Get call; on failure return no value;
at target variant_t return the raw variant unchanged; otherwise run
ConvertVariant at the requested target shape. -/
def Object.GetProperty (o : Object) (t : Target) (name : Str) : Option Decoded :=
  match o.object with
  | none => none
  | some row =>
    match Row.lookup row name with
    | none => none
    | some v => ConvertVariant t v

/-- Object equality (source lines 177-183): two null handles are equal; a
null handle against a non-null one is unequal; otherwise the external
CompareTo decides, invoked with WBEM_FLAG_IGNORE_OBJECT_SOURCE and
WBEM_FLAG_IGNORE_QUALIFIERS, and equality holds iff it reports
WBEM_S_SAME. -/
def Object.eq (a b : Object) : Bool :=
  match a.object, b.object with
  | none, none => true
  | none, some _ => false
  | some _, none => false
  | some x, some y => Row.compareTo x ⟨true, true⟩ y

/-- Object inequality (source lines 192-194): the negation of equality. -/
def Object.ne (a b : Object) : Bool :=
  !(Object.eq a b)

/-- One response of the external cursor to a Next call with batch size
one: a row was returned (returned_count one), the call reported failure
(the FAILED branch), or zero rows were returned (end of cursor). -/
inductive NextResp
  | row (r : Row)
  | failure
  | exhausted
deriving DecidableEq

/-- Whether a cursor response carries a row. -/
def NextResp.isRow : NextResp → Bool
  | .row _ => true
  | _ => false

/-- QueryResult::PopulateObjects (source lines 293-308): repeatedly call
the external cursor's Next with an unbounded wait (WBEM_INFINITE) and
batch size 1 — the model consumes exactly one response per iteration —
appending each returned row, wrapped in an Object that retains iface_, to
the objects vector; break out of the loop, without raising any error, as
soon as a call reports failure or returns zero rows. -/
def PopulateObjects (iface : Nat) : List NextResp → List Object
  | [] => []
  | .row r :: rest => Object.mk iface (some r) :: PopulateObjects iface rest
  | .failure :: _ => []
  | .exhausted :: _ => []

/-- Follows the spec's words (section 4.3 drain algorithm), for comparison
with the source-derived PopulateObjects: the rows the cursor emits before
its first failure or zero-row response, in emission order. -/
def emittedBeforeStop (resps : List NextResp) : List Row :=
  (resps.takeWhile NextResp.isRow).filterMap
    (fun resp => match resp with
      | .row r => some r
      | _ => none)

/-- QueryResult (source lines 206-309): the iface_ shared reference to the
Interface that produced the result, and the objects vector drained once
from the cursor. -/
structure QueryResult where
  iface : Nat
  objects : List Object
deriving DecidableEq

/-- The QueryResult constructor (source lines 210-213): store the shared
Interface reference; if the enumerator handle is non-null, drain it via
PopulateObjects, otherwise leave the objects vector empty. -/
def mkQueryResult (iface : Nat) (enumerator : Option (List NextResp)) : QueryResult :=
  { iface := iface
    objects :=
      match enumerator with
      | none => []
      | some cursor => PopulateObjects iface cursor }

/-- QueryResult::Count (source lines 253-255): the size of the objects
vector. -/
def QueryResult.Count (qr : QueryResult) : Nat :=
  qr.objects.length

/-- QueryResult::GetAt (source lines 262-264): vector::at, which returns
the element at the index or throws std::out_of_range. -/
def QueryResult.GetAt (qr : QueryResult) (index : Nat) : Except String Object :=
  match qr.objects.get? index with
  | some o => Except.ok o
  | none => Except.error "out_of_range"

/-- The by-name QueryResult::GetProperty (source lines 224-233): scan the
objects in order and return the first decode that produces a value; no
value when every object yields none. -/
def QueryResult.GetProperty (qr : QueryResult) (t : Target) (name : Str) : Option Decoded :=
  qr.objects.findSome? (fun o => o.GetProperty t name)

/-- The indexed QueryResult::GetProperty overload (source lines 244-248):
no value when the index is out of range; otherwise the property read on
the object GetAt returns (the bound was just checked, so at cannot throw
there). -/
def QueryResult.GetPropertyAt (qr : QueryResult) (t : Target) (name : Str) (index : Nat) :
    Option Decoded :=
  if qr.Count ≤ index then none
  else
    match qr.GetAt index with
    | Except.ok o => o.GetProperty t name
    | Except.error _ => none

/-- The outcomes of the external calls the Interface constructor makes, in
order: CoInitializeEx, CoCreateInstance of the WbemLocator, ConnectServer,
CoSetProxyBlanket. -/
structure ComEnv where
  coInitOk : Bool
  createLocatorOk : Bool
  connectServerOk : Bool
  proxyBlanketOk : Bool
deriving DecidableEq

/-- The Interface constructor (source lines 359-401), returning the thrown
exception's message or success, paired with the number of outstanding COM
runtime initializations afterwards (CoInitializeEx calls minus
CoUninitialize calls).  A CoInitializeEx failure throws with nothing to
unwind; each later failure calls CoUninitialize before throwing; on
success the single initialization is held for the destructor. -/
def interfaceCtor (env : ComEnv) : Except String Unit × Nat :=
  if env.coInitOk then
    if env.createLocatorOk then
      if env.connectServerOk then
        if env.proxyBlanketOk then
          (Except.ok (), 1)
        else (Except.error "Could not set proxy blanket", 1 - 1)
      else (Except.error "Could not connect to WMI service", 1 - 1)
    else (Except.error "Failed to create WbemLocator object", 1 - 1)
  else (Except.error "Failed to initialize the COM library", 0)

/-- Whether every constructor step succeeds in the given environment. -/
def ComEnv.allOk (env : ComEnv) : Bool :=
  env.coInitOk && env.createLocatorOk && env.connectServerOk && env.proxyBlanketOk

/-- Interface::ExecuteQuery (source lines 338-351): submit the query to
the external ExecQuery requesting a forward-only, immediately-returning
cursor; if submission fails throw a query error, constructing no
QueryResult; otherwise construct the QueryResult from shared_from_this and
the returned enumerator, which drains it eagerly.  The submission outcome
stands in for the external call: none is a failed submission, some cursor
a successful one. -/
def ExecuteQuery (sid : Nat) (submission : Option (List NextResp)) :
    Except String QueryResult :=
  match submission with
  | none => Except.error "Failed to execute WQL query"
  | some cursor => Except.ok (mkQueryResult sid (some cursor))

/-- Modelled from the spec: the control block of the std::shared_ptr
holding a Session (external to this repository) — the number of
outstanding counted references, and whether the Session's teardown (the
Interface destructor: connection release and COM uninitialization) has
run. -/
structure SessionRc where
  count : Nat
  torn : Bool
deriving DecidableEq

/-- Modelled from the spec: copying a shared Session handle increments the
reference count. -/
def SessionRc.retain (s : SessionRc) : SessionRc :=
  { s with count := s.count + 1 }

/-- Modelled from the spec: destroying a shared Session handle decrements
the reference count, and the teardown runs exactly when the last counted
reference is released. -/
def SessionRc.release (s : SessionRc) : SessionRc :=
  if s.count ≤ 1 then { count := 0, torn := true }
  else { s with count := s.count - 1 }

/-- Retain k times. -/
def SessionRc.retainN : Nat → SessionRc → SessionRc
  | 0, s => s
  | k + 1, s => SessionRc.retainN k s.retain

/-- Release k times. -/
def SessionRc.releaseN : Nat → SessionRc → SessionRc
  | 0, s => s
  | k + 1, s => SessionRc.releaseN k s.release

/-- The counted Session references a QueryResult holds transitively: its
own iface_ plus the iface_ of every Object it contains (source lines 197,
284, 306: each Object copy retains its own reference). -/
def QueryResult.heldRefs (qr : QueryResult) : Nat :=
  1 + qr.objects.length

/-- A property read performed through a Record while the Session's control
block is in the given state: the externally delegated Get needs the
connection and runtime, so it is well-defined only while the Session has
not been torn down; then it returns the ordinary GetProperty result. -/
def Object.getPropLive (rc : SessionRc) (o : Object) (t : Target) (name : Str) :
    Option (Option Decoded) :=
  if rc.torn then none else some (o.GetProperty t name)

/-- The name of the first failing constructor step's exception, following
the source's message per phase. -/
def ctorFailMsg (env : ComEnv) : String :=
  if !env.coInitOk then "Failed to initialize the COM library"
  else if !env.createLocatorOk then "Failed to create WbemLocator object"
  else if !env.connectServerOk then "Could not connect to WMI service"
  else "Could not set proxy blanket"

/-- The element-by-element copy loop reproduces the attached array. -/
theorem copyOut_eq {α : Type} : ∀ xs : List α, copyOut xs = xs := by
  intro xs
  induction xs with
  | nil => simp [copyOut]
  | cons x xs ih => simp [copyOut, ih]

/-- Decoding a variant whose kind the requested target shape does not
accept yields none: every branch of ConvertVariant fails on such an
input. -/
theorem convert_incompatible_none :
    ∀ (t : Target) (v : Variant),
      acceptsSpec t v.kind = false → ConvertVariant t v = none := by
  intro t v h
  cases t <;> cases v <;>
    simp_all [ConvertVariant, acceptsSpec, Variant.kind, variantCastBool,
      variantCastInt, variantCastBstr, attachArrBool, attachArrInt, attachArrBstr]

/-- C1: the decode operation is total over every modelled DynamicValue and
target shape — the model returns an Option outright, mirroring the
source's catch-all that turns any cast failure into std::nullopt — and for
an input whose kind is incompatible with the requested target it returns
none, never a default or zero value; compatible scalar inputs decode to
the numerically correct value. -/
theorem c1_decode_total_incompatible_absent :
    (∀ (t : Target) (v : Variant),
      acceptsSpec t v.kind = false → ConvertVariant t v = none) ∧
    (∀ (w w2 : IntWidth) (n : Int),
      IntWidth.fits w n = true →
      ConvertVariant (.tInt w) (.vInt w2 n) = some (.dInt n)) ∧
    (∀ b : Bool, ConvertVariant .tBool (.vBool b) = some (.dBool b)) ∧
    (∀ s : Str, ConvertVariant .tStr (.vStr s) = some (.dStr s)) := by
  refine ⟨convert_incompatible_none, ?_, ?_, ?_⟩
  · intro w w2 n h
    simp [ConvertVariant, variantCastInt, h]
  · intro b
    simp [ConvertVariant, variantCastBool]
  · intro s
    simp [ConvertVariant, variantCastBstr]

/-- C1 witness: a string input requested as a boolean is an incompatible
kind and decodes to none; an in-range narrowing decode returns the exact
value. -/
theorem c1_decode_total_incompatible_absent_wit :
    ConvertVariant .tBool (.vStr [104, 105]) = none ∧
    ConvertVariant (.tInt .i8) (.vInt .i32 42) = some (.dInt 42) :=
  ⟨c1_decode_total_incompatible_absent.1 .tBool (.vStr [104, 105]) (by decide),
    c1_decode_total_incompatible_absent.2.1 .i8 .i32 42 (by decide)⟩

/-- C2: array decode is all-or-nothing — an Array variant of element kind
K requested as a vector of K decodes to the whole element list (so the
length equals the input length and order is preserved), while a vector
target whose element kind differs from the array's kind, and any non-array
input requested as a vector, decode to none; a partial array is never
produced. -/
theorem c2_array_all_or_nothing :
    (∀ (w : IntWidth) (xs : List Int),
      ConvertVariant (.tVecInt w) (.arrInt w xs) = some (.dVecInt xs)) ∧
    (∀ bs : List Bool,
      ConvertVariant .tVecBool (.arrBool bs) = some (.dVecBool bs)) ∧
    (∀ ss : List Str,
      ConvertVariant .tVecStr (.arrStr ss) = some (.dVecStr ss)) ∧
    (∀ (t : Target) (v : Variant),
      Target.isVec t = true → acceptsSpec t v.kind = false →
      ConvertVariant t v = none) := by
  refine ⟨?_, ?_, ?_, ?_⟩
  · intro w xs
    simp [ConvertVariant, attachArrInt, copyOut_eq]
  · intro bs
    simp [ConvertVariant, attachArrBool, copyOut_eq]
  · intro ss
    simp [ConvertVariant, attachArrBstr, copyOut_eq]
  · intro t v _ h
    exact convert_incompatible_none t v h

/-- C2 witness: a concrete int32 array decodes whole, and the same array
requested at a different element width decodes to none. -/
theorem c2_array_all_or_nothing_wit :
    ConvertVariant (.tVecInt .i32) (.arrInt .i32 [1, 2, 3]) = some (.dVecInt [1, 2, 3]) ∧
    ConvertVariant (.tVecInt .i64) (.arrInt .i32 [1, 2, 3]) = none :=
  ⟨c2_array_all_or_nothing.1 .i32 [1, 2, 3],
    c2_array_all_or_nothing.2.2.2 (.tVecInt .i64) (.arrInt .i32 [1, 2, 3])
      (by decide) (by decide)⟩

/-- C5: the drain loop pulls one response per call, appends each returned
row to the objects vector in emission order, and stops at the first
failure or zero-row response; its result is exactly the rows the cursor
emitted before that stop, wrapped as Objects retaining the interface
reference, and the loop's return carries no error channel — end of cursor
is normal completion. -/
theorem c5_drain_rows_before_stop :
    ∀ (iface : Nat) (resps : List NextResp),
      PopulateObjects iface resps =
        (emittedBeforeStop resps).map (fun r => Object.mk iface (some r)) := by
  intro iface resps
  induction resps with
  | nil => rfl
  | cons head tail ih =>
    cases head with
    | row r =>
      simp [PopulateObjects, emittedBeforeStop, List.takeWhile_cons,
        NextResp.isRow, List.filterMap_cons] at *
      exact ih
    | failure => rfl
    | exhausted => rfl

/-- C7: the Interface constructor succeeds exactly when every external
initialization step succeeds; on any failure it throws the failing phase's
connection error and leaves zero outstanding COM initializations — the
CoInitializeEx-failure path performed none, and every later failure path
calls CoUninitialize before throwing. -/
theorem c7_ctor_fails_unwound :
    ∀ env : ComEnv,
      (interfaceCtor env).fst =
        (if env.allOk then Except.ok () else Except.error (ctorFailMsg env)) ∧
      (interfaceCtor env).snd = (if env.allOk then 1 else 0) := by
  intro env
  obtain ⟨a, b, c, d⟩ := env
  cases a <;> cases b <;> cases c <;> cases d <;>
    simp [interfaceCtor, ComEnv.allOk, ctorFailMsg]

/-- C8: ExecuteQuery fails, with the query error and without constructing
any QueryResult, exactly when submission to the external collaborator
fails; on successful submission it returns the fully drained QueryResult
whose iface field shares ownership of the session. -/
theorem c8_query_error_atomic :
    ∀ sid : Nat,
      ExecuteQuery sid none = Except.error "Failed to execute WQL query" ∧
      ∀ cursor : List NextResp,
        ExecuteQuery sid (some cursor) =
          Except.ok { iface := sid, objects := PopulateObjects sid cursor } := by
  intro sid
  exact ⟨rfl, fun cursor => rfl⟩

/-- C9: Object equality holds exactly when both handles are null, or both
are non-null and the external identity comparison, invoked with the
ignore-source and ignore-qualifiers flags, reports sameness — so two null
Records are equal and a null against a non-null Record is unequal — and
inequality is the exact negation of equality. -/
theorem c9_record_equality :
    ∀ a b : Object,
      (Object.eq a b = true ↔
        (a.object = none ∧ b.object = none) ∨
        (∃ x y, a.object = some x ∧ b.object = some y ∧
          Row.compareTo x ⟨true, true⟩ y = true)) ∧
      Object.ne a b = !(Object.eq a b) := by
  intro a b
  refine ⟨?_, rfl⟩
  cases ha : a.object <;> cases hb : b.object <;>
    simp [Object.eq, ha, hb]

/-- C10: a QueryResult constructed from a null enumerator handle attempts
no population and is a valid empty result: its objects vector is empty,
Count is zero, every by-name and every indexed property lookup returns
none for every name, target and index, and GetAt fails out-of-range at
every index. -/
theorem c10_null_enumerator_empty :
    ∀ (sid : Nat) (t : Target) (name : Str) (i : Nat),
      (mkQueryResult sid none).objects = [] ∧
      QueryResult.Count (mkQueryResult sid none) = 0 ∧
      QueryResult.GetProperty (mkQueryResult sid none) t name = none ∧
      QueryResult.GetPropertyAt (mkQueryResult sid none) t name i = none ∧
      QueryResult.GetAt (mkQueryResult sid none) i = Except.error "out_of_range" := by
  intro sid t name i
  refine ⟨rfl, rfl, rfl, ?_, ?_⟩
  · simp [QueryResult.GetPropertyAt, QueryResult.Count, mkQueryResult]
  · simp [QueryResult.GetAt, mkQueryResult]

/-- Scanning with findSome? returns the value found at the first index
whose decode is non-none, when every earlier index decodes to none. -/
theorem findSome?_of_first {α β : Type} (f : α → Option β) :
    ∀ (l : List α) (i : Nat) (a : α) (b : β),
      l.get? i = some a → f a = some b →
      (∀ j aj, j < i → l.get? j = some aj → f aj = none) →
      l.findSome? f = some b := by
  intro l
  induction l with
  | nil =>
    intro i a b hget _ _
    simp at hget
  | cons x xs ih =>
    intro i a b hget hf hprev
    cases i with
    | zero =>
      simp at hget
      subst hget
      simp [List.findSome?_cons, hf]
    | succ i =>
      have hx : f x = none := hprev 0 x (Nat.succ_pos i) (by simp)
      have hrest := ih i a b (by simpa using hget) hf
        (fun j aj hj hg => hprev (j + 1) aj (Nat.succ_lt_succ hj) (by simpa using hg))
      simp [List.findSome?_cons, hx, hrest]

/-- The field name of the C3 scenario. -/
def fooName : Str := [70, 111, 111]

/-- A scenario row carrying the property Foo with int32 value 42. -/
def rowFoo : Row := ⟨[], [], [(fooName, .vInt .i32 42)]⟩

/-- A scenario row with no properties at all. -/
def rowBare : Row := ⟨[], [], []⟩

/-- The 3-row scenario result set: only the Record at index 1 carries the
field Foo. -/
def qrScenario : QueryResult :=
  ⟨5, [⟨5, some rowBare⟩, ⟨5, some rowFoo⟩, ⟨5, some rowBare⟩]⟩

/-- C3: the by-name lookup on a result set returns the first non-absent
decode obtained scanning the Records in sequence order — none exactly when
every Record decodes to none, and the value found at the first index whose
decode succeeds otherwise — and on the 3-row scenario where only row index
1 carries Foo = 42, the by-name lookup returns 42 while the indexed lookup
returns none at indices 0 and 2 and 42 at index 1. -/
theorem c3_first_match_scan :
    (∀ (qr : QueryResult) (t : Target) (name : Str),
      qr.GetProperty t name = none ↔ ∀ o ∈ qr.objects, o.GetProperty t name = none) ∧
    (∀ (qr : QueryResult) (t : Target) (name : Str) (i : Nat) (o : Object) (d : Decoded),
      qr.objects.get? i = some o → o.GetProperty t name = some d →
      (∀ j oj, j < i → qr.objects.get? j = some oj → oj.GetProperty t name = none) →
      qr.GetProperty t name = some d) ∧
    QueryResult.GetProperty qrScenario (.tInt .i32) fooName = some (.dInt 42) ∧
    QueryResult.GetPropertyAt qrScenario (.tInt .i32) fooName 0 = none ∧
    QueryResult.GetPropertyAt qrScenario (.tInt .i32) fooName 1 = some (.dInt 42) ∧
    QueryResult.GetPropertyAt qrScenario (.tInt .i32) fooName 2 = none := by
  refine ⟨?_, ?_, by decide, by decide, by decide, by decide⟩
  · intro qr t name
    exact List.findSome?_eq_none_iff
  · intro qr t name i o d hget hf hprev
    exact findSome?_of_first (fun o => o.GetProperty t name) qr.objects i o d hget hf hprev

/-- C3 witness: the first-match rule applied concretely to the scenario
result set at index 1 yields Foo = 42. -/
theorem c3_first_match_scan_wit :
    QueryResult.GetProperty qrScenario (.tInt .i32) fooName = some (.dInt 42) :=
  c3_first_match_scan.2.1 qrScenario (.tInt .i32) fooName 1 ⟨5, some rowFoo⟩ (.dInt 42)
    (by decide) (by decide)
    (by
      intro j oj hj hget
      cases j with
      | zero =>
        have h0 : (⟨5, some rowBare⟩ : Object) = oj := by
          simpa [qrScenario] using hget
        subst h0
        decide
      | succ j => omega)

/-- C4: the indexed property lookup is bounds-checked — at any index at or
past Count it returns none rather than an error, while GetAt fails there
with the distinct out-of-range error; below Count, GetAt returns the
Record at that index and the indexed lookup returns that Record's decode
result. -/
theorem c4_indexed_absent_at_oob :
    ∀ (qr : QueryResult) (t : Target) (name : Str) (i : Nat),
      (qr.Count ≤ i →
        qr.GetPropertyAt t name i = none ∧
        qr.GetAt i = Except.error "out_of_range") ∧
      (i < qr.Count →
        ∃ o, qr.objects[i]? = some o ∧ qr.GetAt i = Except.ok o ∧
          qr.GetPropertyAt t name i = o.GetProperty t name) := by
  intro qr t name i
  constructor
  · intro h
    have hnone : qr.objects[i]? = none := List.getElem?_eq_none h
    exact ⟨by simp [QueryResult.GetPropertyAt, h],
      by simp [QueryResult.GetAt, List.get?_eq_getElem?, hnone]⟩
  · intro h
    have hlt : i < qr.objects.length := h
    have hsome : qr.objects[i]? = some qr.objects[i] := List.getElem?_eq_getElem hlt
    refine ⟨qr.objects[i], hsome, ?_, ?_⟩
    · simp [QueryResult.GetAt, List.get?_eq_getElem?, hsome]
    · simp [QueryResult.GetPropertyAt, QueryResult.Count, Nat.not_le.mpr h,
        QueryResult.GetAt, List.get?_eq_getElem?, hsome]
      intro hc
      omega

/-- C4 witness: on a one-record result set, index 1 yields none from the
indexed lookup and out-of-range from GetAt, while index 0 is in bounds. -/
theorem c4_indexed_absent_at_oob_wit :
    (QueryResult.GetPropertyAt ⟨9, [⟨9, some ⟨[], [], []⟩⟩]⟩ .tBool [70] 1 = none ∧
      QueryResult.GetAt ⟨9, [⟨9, some ⟨[], [], []⟩⟩]⟩ 1 = Except.error "out_of_range") ∧
    (∃ o, (⟨9, [⟨9, some ⟨[], [], []⟩⟩]⟩ : QueryResult).objects[0]? = some o ∧
      QueryResult.GetAt ⟨9, [⟨9, some ⟨[], [], []⟩⟩]⟩ 0 = Except.ok o ∧
      QueryResult.GetPropertyAt ⟨9, [⟨9, some ⟨[], [], []⟩⟩]⟩ .tBool [70] 0 =
        o.GetProperty .tBool [70]) :=
  ⟨(c4_indexed_absent_at_oob ⟨9, [⟨9, some ⟨[], [], []⟩⟩]⟩ .tBool [70] 1).1 (by decide),
    (c4_indexed_absent_at_oob ⟨9, [⟨9, some ⟨[], [], []⟩⟩]⟩ .tBool [70] 0).2 (by decide)⟩

/-- Retaining k references adds k to the count and never tears down. -/
theorem retainN_spec : ∀ (k : Nat) (s : SessionRc),
    SessionRc.retainN k s = ⟨s.count + k, s.torn⟩ := by
  intro k
  induction k with
  | zero => intro s; simp [SessionRc.retainN]
  | succ k ih =>
    intro s
    have := ih s.retain
    simp [SessionRc.retainN, SessionRc.retain] at *
    rw [this]
    congr 1
    omega

/-- Releasing fewer references than are outstanding leaves the session
alive with the remaining count. -/
theorem releaseN_live : ∀ (k m : Nat), k < m →
    SessionRc.releaseN k ⟨m, false⟩ = ⟨m - k, false⟩ := by
  intro k
  induction k with
  | zero => intro m _; simp [SessionRc.releaseN]
  | succ k ih =>
    intro m hk
    have hm : ¬ m ≤ 1 := by omega
    have hstep : (SessionRc.mk m false).release = ⟨m - 1, false⟩ := by
      simp [SessionRc.release, hm]
    have := ih (m - 1) (by omega)
    simp [SessionRc.releaseN, hstep, this]
    omega

/-- Releasing exactly the outstanding references runs the teardown. -/
theorem releaseN_all : ∀ m : Nat, 1 ≤ m →
    SessionRc.releaseN m ⟨m, false⟩ = ⟨0, true⟩ := by
  intro m
  induction m with
  | zero => omega
  | succ m ih =>
    intro _
    cases Nat.eq_zero_or_pos m with
    | inl h0 =>
      subst h0
      simp [SessionRc.releaseN, SessionRc.release]
    | inr hpos =>
      have hm : ¬ m + 1 ≤ 1 := by omega
      have hstep : (SessionRc.mk (m + 1) false).release = ⟨m, false⟩ := by
        simp [SessionRc.release, hm]
      simp [SessionRc.releaseN, hstep, ih hpos]

/-- C6: every Record and the ResultSet itself hold counted Session
references (heldRefs of them in total), so after the caller's own handle —
the single count the factory handed out — is released, the session is
still alive with exactly the transitively held count outstanding; every
Record's field read still succeeds, returning its ordinary result;
releasing any proper subset of the remaining references keeps the session
alive, and the teardown runs exactly when the last reference is
released. -/
theorem c6_shared_ownership_keeps_session :
    ∀ (qr : QueryResult) (t : Target) (name : Str),
      (SessionRc.retainN qr.heldRefs ⟨1, false⟩).release = ⟨qr.heldRefs, false⟩ ∧
      (∀ k, k < qr.heldRefs →
        (SessionRc.releaseN k ((SessionRc.retainN qr.heldRefs ⟨1, false⟩).release)).torn
          = false) ∧
      SessionRc.releaseN qr.heldRefs ((SessionRc.retainN qr.heldRefs ⟨1, false⟩).release)
        = ⟨0, true⟩ ∧
      (∀ o, o ∈ qr.objects →
        Object.getPropLive ((SessionRc.retainN qr.heldRefs ⟨1, false⟩).release) o t name
          = some (o.GetProperty t name)) := by
  intro qr t name
  have hheld : 1 ≤ qr.heldRefs := Nat.le_add_right 1 qr.objects.length
  have hret : SessionRc.retainN qr.heldRefs ⟨1, false⟩ = ⟨1 + qr.heldRefs, false⟩ :=
    retainN_spec qr.heldRefs ⟨1, false⟩
  have hdrop : (SessionRc.retainN qr.heldRefs ⟨1, false⟩).release
      = ⟨qr.heldRefs, false⟩ := by
    rw [hret]
    have : ¬ 1 + qr.heldRefs ≤ 1 := by omega
    simp [SessionRc.release, this]
  refine ⟨hdrop, ?_, ?_, ?_⟩
  · intro k hk
    rw [hdrop, releaseN_live k qr.heldRefs hk]
  · rw [hdrop, releaseN_all qr.heldRefs hheld]
  · intro o _
    rw [hdrop]
    simp [Object.getPropLive]

/-- C6 witness: a one-record result set holds two references; after the
caller's handle is gone the session is still live and the record's read
returns its ordinary result, and releasing both remaining references tears
the session down. -/
theorem c6_shared_ownership_keeps_session_wit :
    (SessionRc.releaseN 0 ((SessionRc.retainN
        (QueryResult.heldRefs ⟨3, [⟨3, some ⟨[], [], []⟩⟩]⟩) ⟨1, false⟩).release)).torn
      = false ∧
    Object.getPropLive ((SessionRc.retainN
        (QueryResult.heldRefs ⟨3, [⟨3, some ⟨[], [], []⟩⟩]⟩) ⟨1, false⟩).release)
        ⟨3, some ⟨[], [], []⟩⟩ .tBool [70]
      = some (Object.GetProperty ⟨3, some ⟨[], [], []⟩⟩ .tBool [70]) :=
  ⟨(c6_shared_ownership_keeps_session ⟨3, [⟨3, some ⟨[], [], []⟩⟩]⟩ .tBool [70]).2.1 0
      (by decide),
    (c6_shared_ownership_keeps_session ⟨3, [⟨3, some ⟨[], [], []⟩⟩]⟩ .tBool [70]).2.2.2
      ⟨3, some ⟨[], [], []⟩⟩ (by decide)⟩

end Wmipp
